import Mathlib

/-!
Shallow embedding of the DCF valuation engine of
src/advanced_dcf_calculator.py (ZiyaUtku/DCF-Calculator).

Monetary amounts and rates are modelled as exact rationals; optional
inputs (tax expense, depreciation, interest expense, short-term growth
override) are modelled as Option values, matching the Python code where
those parameters may be None.  Each definition mirrors one Python
function, keeping its name and branch structure.
-/

namespace DCF

/-- Embeds calculate_tax_rate (lines 178-184): fallback 0.21 when the
    tax expense is missing or EBIT is nonpositive, otherwise
    tax_expense / ebit clamped into [0, 0.5]. -/
def calculate_tax_rate (ebit : ℚ) (tax_expense : Option ℚ) : ℚ :=
  match tax_expense with
  | none => 21/100
  | some te =>
    if ebit ≤ 0 then 21/100
    else max 0 (min (te / ebit) (1/2))

/-- Embeds calculate_cost_of_debt (lines 187-198): 0 when there is no
    debt; otherwise a pretax cost (interest / debt, or the 0.04 fallback
    when interest is missing or zero) times (1 - tax rate). -/
def calculate_cost_of_debt (total_debt : ℚ) (interest_expense : Option ℚ)
    (tax_rate : ℚ) : ℚ :=
  if total_debt = 0 then 0
  else
    let pretax_cost : ℚ :=
      if interest_expense = none ∨ interest_expense = some 0 then 4/100
      else interest_expense.getD 0 / total_debt
    pretax_cost * (1 - tax_rate)

/-- Embeds calculate_cost_of_equity (lines 201-204): CAPM. -/
def calculate_cost_of_equity (risk_free_rate beta equity_risk_premium : ℚ) : ℚ :=
  risk_free_rate + beta * equity_risk_premium

/-- Embeds calculate_wacc (lines 207-218): market-value weighted average
    of the two costs, returning the cost of equity when the total firm
    value is zero. -/
def calculate_wacc (cost_of_equity cost_of_debt market_cap total_debt : ℚ) : ℚ :=
  let total_value := market_cap + total_debt
  if total_value = 0 then cost_of_equity
  else
    let weight_equity := market_cap / total_value
    let weight_debt := total_debt / total_value
    weight_equity * cost_of_equity + weight_debt * cost_of_debt

/-- Embeds calculate_fcff (lines 221-227): NOPAT plus depreciation
    (absent depreciation read as 0, as the Python truthiness test does)
    minus capex and change in working capital. -/
def calculate_fcff (ebit tax_rate : ℚ) (depreciation : Option ℚ)
    (capex change_in_wc : ℚ) : ℚ :=
  let nopat := ebit * (1 - tax_rate)
  nopat + depreciation.getD 0 - capex - change_in_wc

/-- Embeds forecast_fcff (lines 230-240): for year in range(1, years+1),
    append base_fcff * (1+g)**year, where g defaults to 0.05 when the
    short-term growth override is None. -/
def forecast_fcff (base_fcff : ℚ) (forecast_years : ℕ)
    (short_term_growth : Option ℚ) : List ℚ :=
  let g := short_term_growth.getD (5/100)
  (List.range' 1 forecast_years).map (fun year => base_fcff * (1 + g) ^ year)

/-- Result of one run of calculate_terminal_value: the Python function
    always returns a float, and additionally prints an error message in
    the guarded branch; printed_error records that side effect. -/
structure TerminalValueRun where
  printed_error : Bool
  ret : ℚ
  deriving DecidableEq, Repr

/-- Embeds calculate_terminal_value (lines 243-250): when
    wacc ≤ perpetual_growth it prints an error and returns 0; otherwise
    it returns the Gordon-growth perpetuity value with no error. -/
def calculate_terminal_value (fcff_final perpetual_growth wacc : ℚ) :
    TerminalValueRun :=
  if wacc ≤ perpetual_growth then ⟨true, 0⟩
  else ⟨false, fcff_final * (1 + perpetual_growth) / (wacc - perpetual_growth)⟩

/-- Modelled from the spec: the spec demands that terminalValue signal a
    distinct DomainViolation (here: none) whenever wacc ≤ perpetualGrowth
    and return a numeric value only otherwise.  This definition follows
    the spec words, to be compared with calculate_terminal_value. -/
def terminalValueSpec (fcff_final perpetual_growth wacc : ℚ) : Option ℚ :=
  if wacc ≤ perpetual_growth then none
  else some (fcff_final * (1 + perpetual_growth) / (wacc - perpetual_growth))

/-- Embeds calculate_enterprise_value (lines 253-266): discounts each
    forecast cash flow by (1+wacc)^year with year counted from 1
    (enumerate(forecasted_fcff, 1)), discounts the terminal value by
    (1+wacc)^len(forecasted_fcff), and returns
    (enterprise_value, pv_fcff_list, pv_terminal). -/
def calculate_enterprise_value (forecasted_fcff : List ℚ)
    (terminal_value wacc : ℚ) : ℚ × List ℚ × ℚ :=
  let pv_fcff_list :=
    (List.enumFrom 1 forecasted_fcff).map (fun p => p.2 / (1 + wacc) ^ p.1)
  let pv_fcff_total := pv_fcff_list.sum
  let pv_terminal := terminal_value / (1 + wacc) ^ forecasted_fcff.length
  (pv_fcff_total + pv_terminal, pv_fcff_list, pv_terminal)

/-- Embeds calculate_equity_value (lines 269-272). -/
def calculate_equity_value (enterprise_value total_debt cash : ℚ) : ℚ :=
  enterprise_value - total_debt + cash

/-- Embeds calculate_intrinsic_value_per_share (lines 275-281): guarded
    division by shares outstanding. -/
def calculate_intrinsic_value_per_share (equity_value shares_outstanding : ℚ) : ℚ :=
  if shares_outstanding = 0 then 0
  else equity_value / shares_outstanding

/-- np.linspace(a, b, n): n evenly spaced points from a to b. -/
def linspace (a b : ℚ) (n : ℕ) : List ℚ :=
  (List.range n).map (fun k => a + (b - a) * k / ((n : ℚ) - 1))

/-- The WACC axis of the sensitivity grid (line 307):
    np.linspace(wacc*0.8, wacc*1.2, 7). -/
def waccRange (wacc : ℚ) : List ℚ :=
  linspace (wacc * (8/10)) (wacc * (12/10)) 7

/-- The growth axis of the sensitivity grid (lines 308-309):
    np.linspace(g*0.5, min(g*1.5, wacc*0.9), 7). -/
def growthRange (perpetual_growth wacc : ℚ) : List ℚ :=
  linspace (perpetual_growth * (5/10))
    (min (perpetual_growth * (15/10)) (wacc * (9/10))) 7

/-- Embeds one cell of the sensitivity loop body (lines 315-324): when
    w > g the per-share value is fully recomputed (terminal value,
    discounting, debt/cash bridge, division by shares); otherwise the
    cell is np.nan, modelled as none. -/
def sensitivity_cell (forecasted_fcff : List ℚ) (total_debt cash shares : ℚ)
    (w g : ℚ) : Option ℚ :=
  if g < w then
    let tv_sens := forecasted_fcff.getLastD 0 * (1 + g) / (w - g)
    let pv_tv_sens := tv_sens / (1 + w) ^ forecasted_fcff.length
    let pv_fcff_sens :=
      ((List.enumFrom 0 forecasted_fcff).map
        (fun p => p.2 / (1 + w) ^ (p.1 + 1))).sum
    let ev_sens := pv_fcff_sens + pv_tv_sens
    let eq_val_sens := ev_sens - total_debt + cash
    some (eq_val_sens / shares)
  else none

/-- Embeds the 7x7 sensitivity matrix of create_visualizations
    (lines 307-324): rows indexed by the WACC axis, columns by the
    growth axis. -/
def sensitivity_matrix (forecasted_fcff : List ℚ) (total_debt cash shares : ℚ)
    (wacc perpetual_growth : ℚ) : List (List (Option ℚ)) :=
  (waccRange wacc).map (fun w =>
    (growthRange perpetual_growth wacc).map (fun g =>
      sensitivity_cell forecasted_fcff total_debt cash shares w g))

/-- Mapping a two-argument function over a list enumerated from k gives
    the ofFn table of the function at the shifted index and the entry. -/
theorem enumFrom_map_ofFn (f : ℕ → ℚ → ℚ) (l : List ℚ) :
    ∀ k, (List.enumFrom k l).map (fun p => f p.1 p.2) =
      List.ofFn (fun i : Fin l.length => f (k + i.1) (l.get i)) := by
  induction l with
  | nil => intro k; simp
  | cons a l ih =>
    intro k
    rw [List.enumFrom_cons, List.map_cons, ih (k + 1)]
    show _ = List.ofFn fun i : Fin (l.length + 1) => f (k + i.1) ((a :: l).get i)
    rw [List.ofFn_succ]
    congr 1
    congr 1
    funext i
    simp only [List.get_eq_getElem, Fin.val_succ, List.getElem_cons_succ]
    congr 1
    omega

/-- The discounted-cash-flow list of calculate_enterprise_value as an
    ofFn table: entry i (0-based) is the year-(i+1) cash flow discounted
    by (1+w)^(i+1). -/
theorem pv_list_ofFn (l : List ℚ) (w : ℚ) :
    (List.enumFrom 1 l).map (fun p => p.2 / (1 + w) ^ p.1) =
      List.ofFn (fun i : Fin l.length => l.get i / (1 + w) ^ (i.1 + 1)) := by
  refine (enumFrom_map_ofFn (fun n x => x / (1 + w) ^ n) l 1).trans ?_
  congr 1
  funext i
  rw [Nat.add_comm]

/-- The discounted-cash-flow list of the sensitivity loop (enumerated
    from 0 with exponent idx+1) as the same ofFn table. -/
theorem pv_list_ofFn_zero (l : List ℚ) (w : ℚ) :
    (List.enumFrom 0 l).map (fun p => p.2 / (1 + w) ^ (p.1 + 1)) =
      List.ofFn (fun i : Fin l.length => l.get i / (1 + w) ^ (i.1 + 1)) := by
  refine (enumFrom_map_ofFn (fun n x => x / (1 + w) ^ (n + 1)) l 0).trans ?_
  congr 1
  funext i
  rw [Nat.zero_add]

/-- C1 counterexample: at fcff_final = 100, perpetual_growth = wacc = 1/20
    (so wacc ≤ perpetualGrowth), the code returns the numeric value 0,
    while the spec-modelled operation signals the error by returning no
    value — refuting the claim that the operation never returns a
    numeric value in that regime. -/
theorem terminal_value_returns_zero_cex :
    (calculate_terminal_value 100 (1/20) (1/20)).ret = 0 ∧
    terminalValueSpec 100 (1/20) (1/20) = none := by
  constructor <;> norm_num [calculate_terminal_value, terminalValueSpec]

/-- C1 (amended): whenever wacc ≤ perpetualGrowth the terminal-value
    operation prints an error message and returns the numeric sentinel 0
    (it does not signal a distinct error value); only when
    wacc > perpetualGrowth does it return, without error,
    finalYearFCFF*(1+perpetualGrowth)/(wacc - perpetualGrowth). -/
theorem terminal_value_guard (fcff_final perpetual_growth wacc : ℚ) :
    (wacc ≤ perpetual_growth →
      calculate_terminal_value fcff_final perpetual_growth wacc =
        ⟨true, 0⟩) ∧
    (perpetual_growth < wacc →
      calculate_terminal_value fcff_final perpetual_growth wacc =
        ⟨false, fcff_final * (1 + perpetual_growth) /
          (wacc - perpetual_growth)⟩) := by
  constructor
  · intro h
    simp [calculate_terminal_value, h]
  · intro h
    simp [calculate_terminal_value, not_le.mpr h]

/-- C1 witness: both branches of terminal_value_guard at concrete
    inputs. -/
theorem terminal_value_guard_witness :
    calculate_terminal_value 100 (1/20) (1/20) = ⟨true, 0⟩ ∧
    calculate_terminal_value 100 (1/40) (1/20) =
      ⟨false, 100 * (1 + 1/40) / (1/20 - 1/40)⟩ :=
  ⟨(terminal_value_guard 100 (1/20) (1/20)).1 (by norm_num),
   (terminal_value_guard 100 (1/40) (1/20)).2 (by norm_num)⟩

/-- C4: the effective tax rate is 0.21 when the tax expense is absent or
    EBIT ≤ 0, is taxExpense/ebit clamped into [0, 0.5] otherwise, and for
    any nonzero EBIT with a present tax expense it lies in [0, 0.5]. -/
theorem tax_rate_spec (ebit : ℚ) (tax_expense : Option ℚ) :
    (tax_expense = none ∨ ebit ≤ 0 →
      calculate_tax_rate ebit tax_expense = 21/100) ∧
    (∀ te, tax_expense = some te → 0 < ebit →
      calculate_tax_rate ebit tax_expense = max 0 (min (te / ebit) (1/2))) ∧
    (tax_expense ≠ none → ebit ≠ 0 →
      0 ≤ calculate_tax_rate ebit tax_expense ∧
      calculate_tax_rate ebit tax_expense ≤ 1/2) := by
  refine ⟨?_, ?_, ?_⟩
  · rintro (h | h)
    · simp [calculate_tax_rate, h]
    · cases tax_expense with
      | none => rfl
      | some te => simp [calculate_tax_rate, h]
  · rintro te rfl h
    simp [calculate_tax_rate, not_le.mpr h]
  · intro hne _
    cases tax_expense with
    | none => exact absurd rfl hne
    | some te =>
      by_cases h : ebit ≤ 0
      · simp only [calculate_tax_rate, if_pos h]
        norm_num
      · simp [calculate_tax_rate, h]

/-- C4 witness: EBIT = 200, tax expense 50 present: rate is the clamped
    quotient 1/4, which lies in [0, 1/2]. -/
theorem tax_rate_spec_witness :
    calculate_tax_rate 200 (some 50) = max 0 (min ((50:ℚ) / 200) (1/2)) ∧
    0 ≤ calculate_tax_rate 200 (some 50) ∧
    calculate_tax_rate 200 (some 50) ≤ 1/2 :=
  ⟨(tax_rate_spec 200 (some 50)).2.1 50 rfl (by norm_num),
   (tax_rate_spec 200 (some 50)).2.2 (by simp) (by norm_num)⟩

/-- C5: the after-tax cost of debt is 0 whenever total debt is 0,
    regardless of the interest expense; otherwise it is
    pretax*(1 - taxRate) with pretax = interestExpense/totalDebt when a
    nonzero interest expense is present and pretax = 0.04 otherwise. -/
theorem cost_of_debt_spec (total_debt : ℚ) (interest_expense : Option ℚ)
    (tax_rate : ℚ) :
    (total_debt = 0 →
      calculate_cost_of_debt total_debt interest_expense tax_rate = 0) ∧
    (total_debt ≠ 0 → interest_expense = none ∨ interest_expense = some 0 →
      calculate_cost_of_debt total_debt interest_expense tax_rate =
        4/100 * (1 - tax_rate)) ∧
    (∀ ie, total_debt ≠ 0 → interest_expense = some ie → ie ≠ 0 →
      calculate_cost_of_debt total_debt interest_expense tax_rate =
        ie / total_debt * (1 - tax_rate)) := by
  refine ⟨?_, ?_, ?_⟩
  · intro h
    simp [calculate_cost_of_debt, h]
  · intro hd hie
    simp [calculate_cost_of_debt, hd, hie]
  · rintro ie hd rfl hie
    simp [calculate_cost_of_debt, hd, hie]

/-- C5 witness: all three branches at concrete inputs. -/
theorem cost_of_debt_spec_witness :
    calculate_cost_of_debt 0 (some 7) (1/5) = 0 ∧
    calculate_cost_of_debt 50 none (1/5) = 4/100 * (1 - 1/5) ∧
    calculate_cost_of_debt 50 (some 2) (1/5) = 2 / 50 * (1 - 1/5) :=
  ⟨(cost_of_debt_spec 0 (some 7) (1/5)).1 rfl,
   (cost_of_debt_spec 50 none (1/5)).2.1 (by norm_num) (Or.inl rfl),
   (cost_of_debt_spec 50 (some 2) (1/5)).2.2 2 (by norm_num) rfl (by norm_num)⟩

/-- C6: WACC returns the cost of equity when marketCap + totalDebt = 0,
    and the market-value weighted average of the two costs otherwise. -/
theorem wacc_spec (cost_of_equity cost_of_debt market_cap total_debt : ℚ) :
    (market_cap + total_debt = 0 →
      calculate_wacc cost_of_equity cost_of_debt market_cap total_debt =
        cost_of_equity) ∧
    (market_cap + total_debt ≠ 0 →
      calculate_wacc cost_of_equity cost_of_debt market_cap total_debt =
        market_cap / (market_cap + total_debt) * cost_of_equity +
        total_debt / (market_cap + total_debt) * cost_of_debt) := by
  constructor
  · intro h
    simp [calculate_wacc, h]
  · intro h
    simp [calculate_wacc, h]

/-- C6 witness: both branches at concrete inputs. -/
theorem wacc_spec_witness :
    calculate_wacc (1/10) (1/25) 0 0 = 1/10 ∧
    calculate_wacc (1/10) (1/25) 60 40 =
      60 / (60 + 40) * (1/10) + 40 / (60 + 40) * (1/25) :=
  ⟨(wacc_spec (1/10) (1/25) 0 0).1 (by norm_num),
   (wacc_spec (1/10) (1/25) 60 40).2 (by norm_num)⟩

/-- C8: base FCFF is ebit*(1 - taxRate) + depreciation - capex -
    changeInWC with absent depreciation read as 0; at EBIT=100,
    taxRate=0.21, depreciation=10, capex=15, changeInWC=0 it is 74. -/
theorem fcff_spec (ebit tax_rate : ℚ) (depreciation : Option ℚ)
    (capex change_in_wc : ℚ) :
    calculate_fcff ebit tax_rate depreciation capex change_in_wc =
      ebit * (1 - tax_rate) + depreciation.getD 0 - capex - change_in_wc ∧
    calculate_fcff ebit tax_rate none capex change_in_wc =
      ebit * (1 - tax_rate) - capex - change_in_wc ∧
    calculate_fcff 100 (21/100) (some 10) 15 0 = 74 := by
  refine ⟨rfl, ?_, by norm_num [calculate_fcff]⟩
  simp [calculate_fcff]

/-- C9: the per-share value is 0 when shares outstanding is 0 and the
    quotient equityValue / sharesOutstanding otherwise: the division is
    guarded. -/
theorem per_share_spec (equity_value shares_outstanding : ℚ) :
    (shares_outstanding = 0 →
      calculate_intrinsic_value_per_share equity_value shares_outstanding = 0) ∧
    (shares_outstanding ≠ 0 →
      calculate_intrinsic_value_per_share equity_value shares_outstanding =
        equity_value / shares_outstanding) := by
  constructor
  · intro h
    simp [calculate_intrinsic_value_per_share, h]
  · intro h
    simp [calculate_intrinsic_value_per_share, h]

/-- C9 witness: both branches at concrete inputs. -/
theorem per_share_spec_witness :
    calculate_intrinsic_value_per_share 500 0 = 0 ∧
    calculate_intrinsic_value_per_share 500 4 = 500 / 4 :=
  ⟨(per_share_spec 500 0).1 rfl, (per_share_spec 500 4).2 (by norm_num)⟩

/-- C7: the FCFF forecast has length exactly years and its element at
    1-indexed position i is baseFCFF*(1+g)^i, with g read as 0.05 when
    no override is supplied. -/
theorem forecast_fcff_spec (base : ℚ) (years : ℕ) (og : Option ℚ)
    (_hy : 1 ≤ years) :
    (forecast_fcff base years og).length = years ∧
    (∀ i, 1 ≤ i → i ≤ years →
      (forecast_fcff base years og)[i - 1]? =
        some (base * (1 + og.getD (5/100)) ^ i)) ∧
    forecast_fcff base years none = forecast_fcff base years (some (5/100)) := by
  refine ⟨by simp [forecast_fcff], ?_, rfl⟩
  intro i hi1 hi2
  have hlt : i - 1 < years := by omega
  rw [forecast_fcff]
  rw [List.getElem?_map, List.getElem?_range' 1 1 hlt]
  have : 1 + 1 * (i - 1) = i := by omega
  rw [this]
  rfl

/-- C7 witness: 3-year forecast from base 100 with override 1/10: year 2
    entry is 100*(1+1/10)^2. -/
theorem forecast_fcff_spec_witness :
    (forecast_fcff 100 3 (some (1/10))).length = 3 ∧
    (forecast_fcff 100 3 (some (1/10)))[2 - 1]? =
      some (100 * (1 + (some (1/10 : ℚ)).getD (5/100)) ^ 2) :=
  ⟨(forecast_fcff_spec 100 3 (some (1/10)) (by norm_num)).1,
   (forecast_fcff_spec 100 3 (some (1/10)) (by norm_num)).2.1 2
     (by norm_num) (by norm_num)⟩

/-- C3: the enterprise value discounts the year-i cash flow by
    (1+wacc)^i, discounts the terminal value by (1+wacc)^n with n the
    forecast length, and sums; for a single forecast year [F] it is
    F/(1+wacc) + TV/(1+wacc). -/
theorem enterprise_value_spec (fs : List ℚ) (tv w : ℚ) (_hne : fs ≠ [])
    (_hw : -1 < w) :
    (calculate_enterprise_value fs tv w).1 =
      (∑ i : Fin fs.length, fs.get i / (1 + w) ^ (i.1 + 1)) +
        tv / (1 + w) ^ fs.length ∧
    (∀ F : ℚ, (calculate_enterprise_value [F] tv w).1 =
      F / (1 + w) + tv / (1 + w)) := by
  constructor
  · simp only [calculate_enterprise_value]
    rw [pv_list_ofFn, List.sum_ofFn]
  · intro F
    simp [calculate_enterprise_value, List.enumFrom, pow_one]

/-- C3 witness: forecast [2], terminal value 3, wacc 1: both the general
    decomposition and the single-year formula at concrete inputs. -/
theorem enterprise_value_spec_witness :
    (calculate_enterprise_value [(2:ℚ)] 3 1).1 =
      (∑ i : Fin ([(2:ℚ)].length),
        [(2:ℚ)].get i / (1 + 1) ^ (i.1 + 1)) +
        3 / (1 + 1) ^ ([(2:ℚ)].length) ∧
    (calculate_enterprise_value [(2:ℚ)] 3 1).1 = 2 / (1 + 1) + 3 / (1 + 1) :=
  ⟨(enterprise_value_spec [(2:ℚ)] 3 1 (by simp) (by norm_num)).1,
   (enterprise_value_spec [(2:ℚ)] 3 1 (by simp) (by norm_num)).2 2⟩

/-- C2: every cell (i, j) of the 7x7 sensitivity matrix is the cell
    computed at the i-th WACC axis value w and j-th growth axis value g;
    whenever w ≤ g the cell is the invalid marker none (never the
    numeric value 0), and whenever w > g it is the per-share value
    obtained by fully recomputing terminal value, discounting, the
    debt/cash bridge, and the division by shares outstanding. -/
theorem sensitivity_grid_spec (fs : List ℚ) (td cash sh wacc pg : ℚ)
    (i j : ℕ) (hi : i < 7) (hj : j < 7) :
    ∃ w g,
      w = (waccRange wacc).getD i 0 ∧
      g = (growthRange pg wacc).getD j 0 ∧
      ((sensitivity_matrix fs td cash sh wacc pg).getD i []).getD j (some 0) =
        sensitivity_cell fs td cash sh w g ∧
      (w ≤ g → sensitivity_cell fs td cash sh w g = none) ∧
      (g < w → sensitivity_cell fs td cash sh w g =
        some ((((∑ idx : Fin fs.length, fs.get idx / (1 + w) ^ (idx.1 + 1)) +
          fs.getLastD 0 * (1 + g) / (w - g) / (1 + w) ^ fs.length) -
          td + cash) / sh)) := by
  have hwlen : i < (waccRange wacc).length := by
    simpa [waccRange, linspace] using hi
  have hglen : j < (growthRange pg wacc).length := by
    simpa [growthRange, linspace] using hj
  have hmlen : i < (sensitivity_matrix fs td cash sh wacc pg).length := by
    simpa [sensitivity_matrix] using hwlen
  refine ⟨(waccRange wacc).getD i 0, (growthRange pg wacc).getD j 0,
    rfl, rfl, ?_, ?_, ?_⟩
  · rw [List.getD_eq_getElem _ _ hwlen, List.getD_eq_getElem _ _ hglen,
      List.getD_eq_getElem _ _ hmlen]
    simp only [sensitivity_matrix, List.getElem_map]
    have hrlen : j < (List.map
        (fun g => sensitivity_cell fs td cash sh (waccRange wacc)[i] g)
        (growthRange pg wacc)).length := by
      simpa using hglen
    rw [List.getD_eq_getElem _ _ hrlen, List.getElem_map]
  · intro h
    simp only [sensitivity_cell, if_neg (not_lt.mpr h)]
  · intro h
    simp only [sensitivity_cell, if_pos h]
    rw [pv_list_ofFn_zero, List.sum_ofFn]

/-- C2 witness: the (0,0) cell of the grid for forecast [100], debt 10,
    cash 5, shares 2, base wacc 1/10 and base growth 1/20. -/
theorem sensitivity_grid_spec_witness :
    ∃ w g,
      w = (waccRange (1/10)).getD 0 0 ∧
      g = (growthRange (1/20) (1/10)).getD 0 0 ∧
      ((sensitivity_matrix [(100:ℚ)] 10 5 2 (1/10) (1/20)).getD 0 []).getD 0
          (some 0) =
        sensitivity_cell [(100:ℚ)] 10 5 2 w g ∧
      (w ≤ g → sensitivity_cell [(100:ℚ)] 10 5 2 w g = none) ∧
      (g < w → sensitivity_cell [(100:ℚ)] 10 5 2 w g =
        some ((((∑ idx : Fin ([(100:ℚ)].length),
          [(100:ℚ)].get idx / (1 + w) ^ (idx.1 + 1)) +
          [(100:ℚ)].getLastD 0 * (1 + g) / (w - g) /
            (1 + w) ^ ([(100:ℚ)].length)) - 10 + 5) / 2)) :=
  sensitivity_grid_spec [(100:ℚ)] 10 5 2 (1/10) (1/20) 0 0
    (by norm_num) (by norm_num)

/-- C10: with nonnegative market cap and debt of positive sum, WACC is a
    convex combination of the two costs, hence lies between their min
    and max; with zero debt it equals the cost of equity exactly. -/
theorem wacc_convex (cost_of_equity cost_of_debt market_cap total_debt : ℚ)
    (hmc : 0 ≤ market_cap) (htd : 0 ≤ total_debt)
    (hpos : 0 < market_cap + total_debt) :
    min cost_of_equity cost_of_debt ≤
      calculate_wacc cost_of_equity cost_of_debt market_cap total_debt ∧
    calculate_wacc cost_of_equity cost_of_debt market_cap total_debt ≤
      max cost_of_equity cost_of_debt ∧
    (total_debt = 0 →
      calculate_wacc cost_of_equity cost_of_debt market_cap total_debt =
        cost_of_equity) := by
  have hne : market_cap + total_debt ≠ 0 := ne_of_gt hpos
  have hsum : market_cap / (market_cap + total_debt) +
      total_debt / (market_cap + total_debt) = 1 := by
    field_simp
  have hwe : 0 ≤ market_cap / (market_cap + total_debt) :=
    div_nonneg hmc (le_of_lt hpos)
  have hwd : 0 ≤ total_debt / (market_cap + total_debt) :=
    div_nonneg htd (le_of_lt hpos)
  have h1 : market_cap / (market_cap + total_debt) *
      min cost_of_equity cost_of_debt ≤
      market_cap / (market_cap + total_debt) * cost_of_equity :=
    mul_le_mul_of_nonneg_left (min_le_left _ _) hwe
  have h2 : total_debt / (market_cap + total_debt) *
      min cost_of_equity cost_of_debt ≤
      total_debt / (market_cap + total_debt) * cost_of_debt :=
    mul_le_mul_of_nonneg_left (min_le_right _ _) hwd
  have h3 : market_cap / (market_cap + total_debt) * cost_of_equity ≤
      market_cap / (market_cap + total_debt) *
      max cost_of_equity cost_of_debt :=
    mul_le_mul_of_nonneg_left (le_max_left _ _) hwe
  have h4 : total_debt / (market_cap + total_debt) * cost_of_debt ≤
      total_debt / (market_cap + total_debt) *
      max cost_of_equity cost_of_debt :=
    mul_le_mul_of_nonneg_left (le_max_right _ _) hwd
  have hmin : (market_cap / (market_cap + total_debt) +
      total_debt / (market_cap + total_debt)) *
      min cost_of_equity cost_of_debt = min cost_of_equity cost_of_debt := by
    rw [hsum, one_mul]
  have hmax : (market_cap / (market_cap + total_debt) +
      total_debt / (market_cap + total_debt)) *
      max cost_of_equity cost_of_debt = max cost_of_equity cost_of_debt := by
    rw [hsum, one_mul]
  simp only [calculate_wacc, if_neg hne]
  refine ⟨by nlinarith [h1, h2, hmin], by nlinarith [h3, h4, hmax], ?_⟩
  intro h
  subst h
  have hmc0 : market_cap ≠ 0 := by
    intro h0
    rw [h0] at hpos
    norm_num at hpos
  field_simp

/-- C10 witness: market cap 60, debt 40, costs 1/10 and 1/25. -/
theorem wacc_convex_witness :
    min (1/10 : ℚ) (1/25) ≤ calculate_wacc (1/10) (1/25) 60 40 ∧
    calculate_wacc (1/10) (1/25) 60 40 ≤ max (1/10 : ℚ) (1/25) ∧
    ((40 : ℚ) = 0 → calculate_wacc (1/10) (1/25) 60 40 = 1/10) :=
  wacc_convex (1/10) (1/25) 60 40 (by norm_num) (by norm_num) (by norm_num)

end DCF
